import Mathlib

/-!
Verification of the `cache-register` library: a shallow embedding of its
three source modules (`multi/limit.rs`, `cell.rs`, `multi.rs`) together
with theorems settling the specification's claims about them.

Rust mutation is modelled by explicit state passing: a Rust method
`fn f(&mut self, ...) -> R` becomes a Lean function returning `R × State`.
`usize` is modelled as `Nat` (no arithmetic in the library can overflow a
`usize` without first exhausting memory, and all counts are non-negative).
The `unreachable_unchecked` branches of the `unsafe` accessors are
modelled as the detectable sentinel `none`, so that "the undefined
behavior branch is taken" is the observable outcome `none`.
-/

namespace CacheRegister

/-- `OccupancyLimit` from `src/multi/limit.rs`: `Unlimited` or `Limited(usize)`. -/
inductive OccupancyLimit where
  | Unlimited : OccupancyLimit
  | Limited : Nat → OccupancyLimit
deriving DecidableEq, Repr

namespace OccupancyLimit

/-- `impl PartialEq<usize> for OccupancyLimit`: equality against a raw count. -/
def eqUsize : OccupancyLimit → Nat → Bool
  | Limited lim, other => lim == other
  | Unlimited, _ => false

/-- `impl PartialOrd<usize> for OccupancyLimit`. -/
def partialCmpUsize : OccupancyLimit → Nat → Option Ordering
  | Limited l0, r0 => some (compare l0 r0)
  | Unlimited, _ => some Ordering.gt

/-- `impl Ord for OccupancyLimit`. -/
def cmp : OccupancyLimit → OccupancyLimit → Ordering
  | Limited l0, Limited r0 => compare l0 r0
  | Unlimited, Unlimited => Ordering.eq
  | Limited _, Unlimited => Ordering.lt
  | Unlimited, Limited _ => Ordering.gt

/-- `OccupancyLimit::unset_limit`: become `Unlimited`, return the prior
numeric limit if one existed. -/
def unset_limit : OccupancyLimit → Option Nat × OccupancyLimit
  | Unlimited => (none, Unlimited)
  | Limited val => (some val, Unlimited)

/-- `OccupancyLimit::is_zero`: `matches!(self, Self::Limited(0))`. -/
def is_zero : OccupancyLimit → Bool
  | Limited 0 => true
  | _ => false

/-- `OccupancyLimit::get`. -/
def get : OccupancyLimit → Option Nat
  | Unlimited => none
  | Limited val => some val

/-- `OccupancyLimit::get_unchecked`; the `unreachable_unchecked()` branch
is modelled as `none`. -/
def get_unchecked : OccupancyLimit → Option Nat
  | Limited value => some value
  | Unlimited => none

/-- `OccupancyLimit::get_mut`, modelled by the value the returned
reference would expose. -/
def get_mut : OccupancyLimit → Option Nat
  | Unlimited => none
  | Limited value => some value

/-- `OccupancyLimit::set_limit`. -/
def set_limit (_ : OccupancyLimit) (limit : Nat) : OccupancyLimit :=
  Limited limit

/-- `OccupancyLimit::get_mut_unchecked`; the `unreachable_unchecked()`
branch is modelled as `none`. -/
def get_mut_unchecked : OccupancyLimit → Option Nat
  | Limited value => some value
  | Unlimited => none

/-- `OccupancyLimit::get_mut_or`: if `Unlimited`, first `set_limit(init)`,
then return the (value behind the) mutable reference.  The pair is the
value the returned reference yields together with the updated state. -/
def get_mut_or (l : OccupancyLimit) (init : Nat) : Option Nat × OccupancyLimit :=
  let l2 :=
    match l with
    | Unlimited => l.set_limit init
    | Limited _ => l
  (l2.get_mut_unchecked, l2)

/-- `OccupancyLimit::replace_limit`. -/
def replace_limit : OccupancyLimit → Nat → Option Nat × OccupancyLimit
  | Unlimited, limit => (none, Limited limit)
  | Limited old_value, limit => (some old_value, Limited limit)

end OccupancyLimit

/-- `OccupancyError` from `src/multi/limit.rs`. -/
inductive OccupancyError where
  | ZeroMaxOccupancy : OccupancyError
  | ReachedMaxOccupancy : Nat → OccupancyError
deriving DecidableEq, Repr

/-- `CacheCell<T>` from `src/cell.rs`: an optional value together with the
`keep_alive` mode flag (`None` = ambiguous, `Some true` = persistent,
`Some false` = transient). -/
structure CacheCell (T : Type) where
  value : Option T
  keep_alive : Option Bool
deriving DecidableEq, Repr

namespace CacheCell

variable {T U : Type}

/-- `CacheCell::new` (also the `Default` impl): empty, ambiguous mode. -/
def new (T : Type) : CacheCell T :=
  { value := none, keep_alive := none }

/-- `CacheCell::set_persistent`: `self.keep_alive.replace(true)`. -/
def set_persistent (c : CacheCell T) : CacheCell T :=
  { c with keep_alive := some true }

/-- `CacheCell::set_transient`: `self.keep_alive.replace(false)`. -/
def set_transient (c : CacheCell T) : CacheCell T :=
  { c with keep_alive := some false }

/-- `CacheCell::is_persistent`: `matches!(self.keep_alive, Some(true))`. -/
def is_persistent (c : CacheCell T) : Bool :=
  c.keep_alive == some true

/-- `CacheCell::is_transient`: `matches!(self.keep_alive, Some(false))`. -/
def is_transient (c : CacheCell T) : Bool :=
  c.keep_alive == some false

/-- `CacheCell::is_ambiguous`: `self.keep_alive.is_none()`. -/
def is_ambiguous (c : CacheCell T) : Bool :=
  c.keep_alive.isNone

/-- `CacheCell::is_empty`. -/
def is_empty (c : CacheCell T) : Bool :=
  c.value.isNone

/-- `CacheCell::has_value`. -/
def has_value (c : CacheCell T) : Bool :=
  c.value.isSome

/-- `CacheCell::get`. -/
def get (c : CacheCell T) : Option T :=
  c.value

/-- `CacheCell::swap`: `self.value.replace(replacement)`; returns the
previous contents together with the updated cell. -/
def swap (c : CacheCell T) (replacement : T) : Option T × CacheCell T :=
  (c.value, { c with value := some replacement })

/-- `CacheCell::checked_clear`: if persistent, `None` and no change; else
take the value and return `Some(())`. -/
def checked_clear (c : CacheCell T) : Option Unit × CacheCell T :=
  if c.is_persistent then
    (none, c)
  else
    (some (), { c with value := none })

/-- `CacheCell::unchecked_clear`: `self.value.take()`, ignoring the mode. -/
def unchecked_clear (c : CacheCell T) : CacheCell T :=
  { c with value := none }

/-- `CacheCell::migrate::<U>`: convert the held value (if any) through the
caller-supplied conversion (`U: From<T>`), keeping `keep_alive`. -/
def migrate (c : CacheCell T) (conv : T → U) : CacheCell U :=
  let value :=
    match c.value with
    | some x => some (conv x)
    | none => none
  { value := value, keep_alive := c.keep_alive }

/-- `impl From<T> for CacheCell<T>`: wrap a bare value, ambiguous mode. -/
def fromValue (value : T) : CacheCell T :=
  { value := some value, keep_alive := none }

/-- `impl From<CacheCell<T>> for Option<T>`: unwrap, discarding the mode. -/
def intoOption (c : CacheCell T) : Option T :=
  c.value

end CacheCell

/-- The mutating operations of `CacheCell<T>`'s public surface (queries
are pure and cannot change the state). -/
inductive CellOp (T : Type) where
  | set_persistent : CellOp T
  | set_transient : CellOp T
  | swap : T → CellOp T
  | checked_clear : CellOp T
  | unchecked_clear : CellOp T
deriving DecidableEq, Repr

/-- Apply one mutating operation to a cell, keeping only the updated state. -/
def stepCell {T : Type} (c : CacheCell T) : CellOp T → CacheCell T
  | CellOp.set_persistent => c.set_persistent
  | CellOp.set_transient => c.set_transient
  | CellOp.swap v => (c.swap v).2
  | CellOp.checked_clear => (c.checked_clear).2
  | CellOp.unchecked_clear => c.unchecked_clear

/-- Run a sequence of mutating operations on a cell, left to right. -/
def runCell {T : Type} (c : CacheCell T) (ops : List (CellOp T)) : CacheCell T :=
  ops.foldl stepCell c

/-- Modelled from the spec: the mode after a sequence of operations is the
target of the most recent `set_persistent`/`set_transient` call, or the
starting mode if no such call occurred. -/
def modeStep {T : Type} (m : Option Bool) : CellOp T → Option Bool
  | CellOp.set_persistent => some true
  | CellOp.set_transient => some false
  | _ => m

/-- Modelled from the spec: fold `modeStep` over a sequence of operations. -/
def lastSetMode {T : Type} (m : Option Bool) (ops : List (CellOp T)) : Option Bool :=
  ops.foldl modeStep m

/-- True iff the operation is a mode setter. -/
def isSetter {T : Type} : CellOp T → Bool
  | CellOp.set_persistent => true
  | CellOp.set_transient => true
  | _ => false

/-- `VecCache<T>` from `src/multi.rs`: a `VecDeque<T>` (modelled as a
`List` in insertion order, head = oldest) plus an `OccupancyLimit`. -/
structure VecCache (T : Type) where
  storage : List T
  limit : OccupancyLimit
deriving DecidableEq, Repr

namespace VecCache

variable {T : Type}

/-- `VecCache::new` (also the `Default` impl): empty, unlimited. -/
def new (T : Type) : VecCache T :=
  { storage := [], limit := OccupancyLimit.Unlimited }

/-- `VecCache::with_limit`: empty, `Limited(max_occupancy)` (the
pre-allocated capacity is a performance detail with no semantic content). -/
def with_limit (T : Type) (max_occupancy : Nat) : VecCache T :=
  { storage := [], limit := OccupancyLimit.Limited max_occupancy }

/-- `VecCache::is_empty`. -/
def is_empty (c : VecCache T) : Bool :=
  c.storage.isEmpty

/-- `VecCache::occupancy`: `self.storage.len()`. -/
def occupancy (c : VecCache T) : Nat :=
  c.storage.length

/-- `VecCache::unset_limit`: delegates to `OccupancyLimit::unset_limit`. -/
def unset_limit (c : VecCache T) : Option Nat × VecCache T :=
  let r := c.limit.unset_limit
  (r.1, { c with limit := r.2 })

/-- `VecCache::limit` (the query method): `self.limit.get()`. -/
def getLimit (c : VecCache T) : Option Nat :=
  c.limit.get

/-- `VecCache::try_push`: match on `self.limit.get()`; `Some(0)` is an
early return with `ZeroMaxOccupancy`, `Some(lim)` early-returns
`ReachedMaxOccupancy(lim)` when `occupancy + 1 > lim`; otherwise
`push_back(value)` and `Ok(())`.  The pair is the `Result` together with
the updated cache. -/
def try_push (c : VecCache T) (value : T) : Except OccupancyError Unit × VecCache T :=
  match c.limit.get with
  | some 0 => (Except.error OccupancyError.ZeroMaxOccupancy, c)
  | some lim =>
      if c.occupancy + 1 > lim then
        (Except.error (OccupancyError.ReachedMaxOccupancy lim), c)
      else
        (Except.ok (), { c with storage := c.storage ++ [value] })
  | none => (Except.ok (), { c with storage := c.storage ++ [value] })

/-- Modelled from the spec: the three-step admission algorithm of §4.3 —
if the limit is `Limited(0)` fail with `ZeroMaxOccupancy`; else if the
limit is `Limited(n)` and occupancy + 1 exceeds `n` fail with
`ReachedMaxOccupancy(n)`; otherwise (including whenever the limit is
`Unlimited`) append the value at the tail and succeed. -/
def try_push_spec (c : VecCache T) (value : T) : Except OccupancyError Unit × VecCache T :=
  if c.limit = OccupancyLimit.Limited 0 then
    (Except.error OccupancyError.ZeroMaxOccupancy, c)
  else
    match c.limit with
    | OccupancyLimit.Limited n =>
        if c.occupancy + 1 > n then
          (Except.error (OccupancyError.ReachedMaxOccupancy n), c)
        else
          (Except.ok (), { c with storage := c.storage ++ [value] })
    | OccupancyLimit.Unlimited =>
        (Except.ok (), { c with storage := c.storage ++ [value] })

/-- The caches reachable from the public constructors (`new`, `default`,
`with_limit`) through the public state-changing operations (`try_push`,
`unset_limit`; `occupancy`, `is_empty` and the `limit` query are pure). -/
inductive Reachable (T : Type) : VecCache T → Prop where
  | new : Reachable T (VecCache.new T)
  | with_limit (n : Nat) : Reachable T (VecCache.with_limit T n)
  | try_push (c : VecCache T) (v : T) :
      Reachable T c → Reachable T (c.try_push v).2
  | unset_limit (c : VecCache T) :
      Reachable T c → Reachable T (c.unset_limit).2

end VecCache

/-- `LLCache<T>` from `src/multi.rs`: a `LinkedList<T>` (modelled as a
`List`) plus an `Option<usize>` limit. -/
structure LLCache (T : Type) where
  storage : List T
  limit : Option Nat
deriving DecidableEq, Repr

namespace LLCache

variable {T : Type}

/-- `LLCache::new`: empty, no limit. -/
def new (T : Type) : LLCache T :=
  { storage := [], limit := none }

/-- The `Default` impl: both fields default (empty list, `None`). -/
def dflt (T : Type) : LLCache T :=
  { storage := [], limit := none }

/-- `LLCache::is_empty`. -/
def is_empty (c : LLCache T) : Bool :=
  c.storage.isEmpty

/-- `LLCache::occupancy`: `self.storage.len()`. -/
def occupancy (c : LLCache T) : Nat :=
  c.storage.length

/-- The caches reachable through `LLCache`'s public interface: only the
constructors produce a cache, and the two queries are pure. -/
inductive Reachable (T : Type) : LLCache T → Prop where
  | new : Reachable T (LLCache.new T)
  | dflt : Reachable T (LLCache.dflt T)

end LLCache

end CacheRegister

namespace CacheRegister

/-- Applying one operation changes `keep_alive` exactly as `modeStep`
says: setters overwrite it, every other operation leaves it alone. -/
theorem stepCell_keep_alive {T : Type} (c : CacheCell T) (op : CellOp T) :
    (stepCell c op).keep_alive = modeStep c.keep_alive op := by
  cases op <;>
    simp [stepCell, modeStep, CacheCell.set_persistent, CacheCell.set_transient,
      CacheCell.swap, CacheCell.checked_clear, CacheCell.unchecked_clear]
  split <;> rfl

/-- The mode after running any sequence of operations is `lastSetMode` of
the starting mode. -/
theorem runCell_keep_alive {T : Type} (ops : List (CellOp T)) (c : CacheCell T) :
    (runCell c ops).keep_alive = lastSetMode c.keep_alive ops := by
  induction ops generalizing c with
  | nil => rfl
  | cons op rest ih =>
      simp only [runCell, List.foldl_cons, lastSetMode] at *
      rw [ih, stepCell_keep_alive]

/-- Once the mode is concrete it never reverts to ambiguous, and a setter
makes it concrete. -/
theorem lastSetMode_ne_none {T : Type} (ops : List (CellOp T)) (m : Option Bool) :
    (m ≠ none → lastSetMode m ops ≠ none) ∧
    ((∃ op ∈ ops, isSetter op = true) → lastSetMode m ops ≠ none) := by
  induction ops generalizing m with
  | nil =>
      refine ⟨fun h => h, fun h => ?_⟩
      obtain ⟨op, hmem, _⟩ := h
      simp at hmem
  | cons op rest ih =>
      constructor
      · intro hm
        cases op with
        | set_persistent => exact (ih (some true)).1 (by simp)
        | set_transient => exact (ih (some false)).1 (by simp)
        | swap v => exact (ih m).1 hm
        | checked_clear => exact (ih m).1 hm
        | unchecked_clear => exact (ih m).1 hm
      · rintro ⟨o, hmem, hset⟩
        rcases List.mem_cons.mp hmem with h | h
        · subst h
          cases o with
          | set_persistent => exact (ih (some true)).1 (by simp)
          | set_transient => exact (ih (some false)).1 (by simp)
          | swap v => simp [isSetter] at hset
          | checked_clear => simp [isSetter] at hset
          | unchecked_clear => simp [isSetter] at hset
        · cases op with
          | set_persistent => exact (ih (some true)).1 (by simp)
          | set_transient => exact (ih (some false)).1 (by simp)
          | swap v => exact (ih m).2 ⟨o, h, hset⟩
          | checked_clear => exact (ih m).2 ⟨o, h, hset⟩
          | unchecked_clear => exact (ih m).2 ⟨o, h, hset⟩

/-- C4: a fresh cell starts in ambiguous mode; after any sequence of
operations the mode is the target of the most recent setter (setters
unconditionally overwrite, everything else preserves the mode); and once
any setter has occurred the mode is never ambiguous again. -/
theorem cacheCell_mode_monotone {T : Type} (ops : List (CellOp T)) :
    (CacheCell.new T).keep_alive = none ∧
    (runCell (CacheCell.new T) ops).keep_alive = lastSetMode none ops ∧
    ((∃ op ∈ ops, isSetter op = true) →
      (runCell (CacheCell.new T) ops).keep_alive ≠ none) := by
  refine ⟨rfl, runCell_keep_alive ops (CacheCell.new T), fun h => ?_⟩
  rw [runCell_keep_alive ops (CacheCell.new T)]
  exact (lastSetMode_ne_none ops none).2 h

/-- C4 witness: after `[set_persistent]` the mode of a fresh cell is not
ambiguous. -/
theorem cacheCell_mode_monotone_witness :
    (∃ op ∈ ([CellOp.set_persistent] : List (CellOp Nat)), isSetter op = true) ∧
    (runCell (CacheCell.new Nat) [CellOp.set_persistent]).keep_alive ≠ none :=
  ⟨⟨CellOp.set_persistent, by simp, rfl⟩,
    (cacheCell_mode_monotone [CellOp.set_persistent]).2.2
      ⟨CellOp.set_persistent, by simp, rfl⟩⟩

/-- C5: `checked_clear` returns `None` ("not cleared") and leaves the
cell unchanged exactly when the mode is persistent; in transient or
ambiguous mode it removes any value, leaves the cell empty, and returns
`Some(())` ("cleared"). -/
theorem checked_clear_spec {T : Type} (c : CacheCell T) :
    c.checked_clear =
      if c.keep_alive = some true then (none, c)
      else (some (), { c with value := none }) := by
  cases c with
  | mk v m =>
      cases m with
      | none => rfl
      | some b => cases b <;> rfl

/-- C9: wrapping a bare value yields an ambiguous-mode cell holding it
and unwrapping recovers the original value; `migrate` maps the held value
through the conversion (empty to empty) while keeping the mode; with an
identity conversion it preserves the whole cell. -/
theorem wrap_unwrap_migrate {T U : Type} (v : T) (f : T → U) (c : CacheCell T) :
    CacheCell.intoOption (CacheCell.fromValue v) = some v ∧
    (CacheCell.fromValue v).keep_alive = none ∧
    (c.migrate f).keep_alive = c.keep_alive ∧
    (c.migrate f).value = Option.map f c.value ∧
    c.migrate id = c := by
  refine ⟨rfl, rfl, rfl, ?_, ?_⟩
  · cases c with
    | mk w m => cases w <;> rfl
  · cases c with
    | mk w m => cases w <;> rfl

/-- C6: `Unlimited` compares strictly greater than every `Limited n` (and
`Limited n` strictly less than `Unlimited`); `Limited n` and `Limited m`
are ordered exactly as `n` and `m`; against a raw count, `Limited n`
equals `m` iff `n = m`, and `Unlimited` equals no raw count. -/
theorem occupancyLimit_order_and_raw_eq (n m : Nat) :
    OccupancyLimit.cmp OccupancyLimit.Unlimited (OccupancyLimit.Limited n) = Ordering.gt ∧
    OccupancyLimit.cmp (OccupancyLimit.Limited n) OccupancyLimit.Unlimited = Ordering.lt ∧
    OccupancyLimit.cmp (OccupancyLimit.Limited n) (OccupancyLimit.Limited m) = compare n m ∧
    (OccupancyLimit.eqUsize (OccupancyLimit.Limited n) m = true ↔ n = m) ∧
    OccupancyLimit.eqUsize OccupancyLimit.Unlimited n = false := by
  refine ⟨rfl, rfl, rfl, ?_, rfl⟩
  simp [OccupancyLimit.eqUsize]

/-- C1: `try_push` follows exactly the three-step admission algorithm of
the spec: `Limited 0` fails with `ZeroMaxOccupancy`; `Limited n` with
occupancy + 1 exceeding `n` fails with `ReachedMaxOccupancy n`; otherwise
(always when `Unlimited`) the value is appended at the tail, keeping the
insertion order of all previously stored elements, and the call succeeds. -/
theorem try_push_follows_admission {T : Type} (c : VecCache T) (v : T) :
    c.try_push v = VecCache.try_push_spec c v := by
  cases c with
  | mk s l =>
      cases l with
      | Unlimited => rfl
      | Limited n =>
          cases n with
          | zero => rfl
          | succ m =>
              simp [VecCache.try_push, VecCache.try_push_spec, OccupancyLimit.get]

/-- C2: `try_push` is a total function whose failures are returned error
values: on failure the cache is returned unchanged, and the error
identifies which limit was hit — `ZeroMaxOccupancy` exactly in the
`Limited 0` state, otherwise `ReachedMaxOccupancy n` carrying the numeric
limit `n` that occupancy + 1 would have exceeded. -/
theorem try_push_error_leaves_cache_unchanged {T : Type} (c : VecCache T) (v : T)
    (e : OccupancyError) (c2 : VecCache T)
    (h : c.try_push v = (Except.error e, c2)) :
    c2 = c ∧
    ((e = OccupancyError.ZeroMaxOccupancy ∧ c.limit = OccupancyLimit.Limited 0) ∨
      (∃ n, e = OccupancyError.ReachedMaxOccupancy n ∧
        c.limit = OccupancyLimit.Limited n ∧ c.occupancy + 1 > n)) := by
  cases c with
  | mk s l =>
      cases l with
      | Unlimited =>
          simp [VecCache.try_push, OccupancyLimit.get] at h
      | Limited n =>
          cases n with
          | zero =>
              simp only [VecCache.try_push, OccupancyLimit.get, Prod.mk.injEq,
                Except.error.injEq] at h
              obtain ⟨h1, h2⟩ := h
              subst h1
              subst h2
              exact ⟨rfl, Or.inl ⟨rfl, rfl⟩⟩
          | succ m =>
              by_cases hgt : s.length + 1 > m + 1
              · simp only [VecCache.try_push, OccupancyLimit.get, VecCache.occupancy,
                  hgt, if_pos, Prod.mk.injEq, Except.error.injEq] at h
                obtain ⟨h1, h2⟩ := h
                subst h1
                subst h2
                exact ⟨rfl, Or.inr ⟨m + 1, rfl, rfl, hgt⟩⟩
              · simp [VecCache.try_push, OccupancyLimit.get, VecCache.occupancy, hgt] at h

/-- C2 witness: pushing into a zero-capacity cache fails with
`ZeroMaxOccupancy` and the cache is unchanged. -/
theorem try_push_error_leaves_cache_unchanged_witness :
    (VecCache.with_limit Nat 0).try_push 5 =
      (Except.error OccupancyError.ZeroMaxOccupancy, VecCache.with_limit Nat 0) ∧
    (VecCache.with_limit Nat 0 = VecCache.with_limit Nat 0 ∧
      ((OccupancyError.ZeroMaxOccupancy = OccupancyError.ZeroMaxOccupancy ∧
          (VecCache.with_limit Nat 0).limit = OccupancyLimit.Limited 0) ∨
        (∃ n, OccupancyError.ZeroMaxOccupancy = OccupancyError.ReachedMaxOccupancy n ∧
          (VecCache.with_limit Nat 0).limit = OccupancyLimit.Limited n ∧
          (VecCache.with_limit Nat 0).occupancy + 1 > n))) :=
  ⟨rfl, try_push_error_leaves_cache_unchanged (VecCache.with_limit Nat 0) 5
    OccupancyError.ZeroMaxOccupancy (VecCache.with_limit Nat 0) rfl⟩

/-- A single `try_push` preserves the occupancy bound. -/
theorem try_push_preserves_bound {T : Type} (c : VecCache T) (v : T)
    (ih : ∀ n, c.limit = OccupancyLimit.Limited n → c.occupancy ≤ n) :
    ∀ n, (c.try_push v).2.limit = OccupancyLimit.Limited n →
      (c.try_push v).2.occupancy ≤ n := by
  cases c with
  | mk s l =>
      cases l with
      | Unlimited =>
          intro n hn
          simp [VecCache.try_push, OccupancyLimit.get] at hn
      | Limited k =>
          cases k with
          | zero => exact ih
          | succ m =>
              by_cases hgt : s.length + 1 > m + 1
              · intro n hn
                simp only [VecCache.try_push, OccupancyLimit.get, VecCache.occupancy,
                  hgt, if_pos] at hn ⊢
                simp only [VecCache.occupancy] at ih
                exact ih n hn
              · intro n hn
                simp only [VecCache.try_push, OccupancyLimit.get, VecCache.occupancy,
                  hgt, if_neg, not_false_iff] at hn ⊢
                injection hn with hn
                subst hn
                simp only [List.length_append, List.length_cons, List.length_nil]
                omega

/-- C3: every cache reachable from `new`/`with_limit` through the public
operations satisfies the invariant: whenever the limit is `Limited n`,
the number of stored elements is at most `n`. -/
theorem vecCache_occupancy_le_limit {T : Type} (c : VecCache T)
    (h : VecCache.Reachable T c) :
    ∀ n, c.limit = OccupancyLimit.Limited n → c.occupancy ≤ n := by
  induction h with
  | new =>
      intro n hn
      simp [VecCache.new] at hn
  | with_limit k =>
      intro n hn
      simp only [VecCache.with_limit] at hn
      cases hn
      simp [VecCache.occupancy, VecCache.with_limit]
  | try_push c v _ ih =>
      exact try_push_preserves_bound c v ih
  | unset_limit c _ _ =>
      intro n hn
      cases c with
      | mk s l =>
          cases l <;> simp [VecCache.unset_limit, OccupancyLimit.unset_limit] at hn

/-- C3 witness: after one successful push into a capacity-2 cache the
invariant gives occupancy at most 2. -/
theorem vecCache_occupancy_le_limit_witness :
    VecCache.Reachable Nat ((VecCache.with_limit Nat 2).try_push 7).2 ∧
    ((VecCache.with_limit Nat 2).try_push 7).2.limit = OccupancyLimit.Limited 2 ∧
    ((VecCache.with_limit Nat 2).try_push 7).2.occupancy ≤ 2 :=
  ⟨VecCache.Reachable.try_push (VecCache.with_limit Nat 2) 7
      (VecCache.Reachable.with_limit 2),
    rfl,
    vecCache_occupancy_le_limit ((VecCache.with_limit Nat 2).try_push 7).2
      (VecCache.Reachable.try_push (VecCache.with_limit Nat 2) 7
        (VecCache.Reachable.with_limit 2)) 2 rfl⟩

/-- C10: every `LLCache` reachable through the public interface is empty:
only the constructors produce caches, both produce the empty unlimited
cache, and the remaining public operations are pure queries — so
`occupancy` is `0` and `is_empty` is `true` on every reachable cache. -/
theorem llCache_reachable_empty {T : Type} (c : LLCache T)
    (h : LLCache.Reachable T c) :
    c.occupancy = 0 ∧ c.is_empty = true := by
  cases h with
  | new => exact ⟨rfl, rfl⟩
  | dflt => exact ⟨rfl, rfl⟩

/-- C10 witness: the freshly constructed `LLCache` is reachable and empty. -/
theorem llCache_reachable_empty_witness :
    LLCache.Reachable Nat (LLCache.new Nat) ∧
    (LLCache.new Nat).occupancy = 0 ∧ (LLCache.new Nat).is_empty = true :=
  ⟨LLCache.Reachable.new,
    llCache_reachable_empty (LLCache.new Nat) LLCache.Reachable.new⟩

/-- C7: under the precondition that the descriptor is `Limited n`,
`get_unchecked` returns `n`; the `unreachable_unchecked` branch (modelled
as the sentinel `none`) is never reached. -/
theorem get_unchecked_of_limited (n : Nat) :
    OccupancyLimit.get_unchecked (OccupancyLimit.Limited n) = some n ∧
    OccupancyLimit.get_unchecked (OccupancyLimit.Limited n) ≠ none := by
  exact ⟨rfl, by simp [OccupancyLimit.get_unchecked]⟩

/-- C8: `get_mut_or init` on `Unlimited` transitions the descriptor in
place to `Limited init` and the returned reference yields `init`; on
`Limited m` it leaves the descriptor unchanged at `m` (ignoring `init`)
and the returned reference yields `m`. -/
theorem get_mut_or_behavior (init m : Nat) :
    OccupancyLimit.get_mut_or OccupancyLimit.Unlimited init =
      (some init, OccupancyLimit.Limited init) ∧
    OccupancyLimit.get_mut_or (OccupancyLimit.Limited m) init =
      (some m, OccupancyLimit.Limited m) := by
  exact ⟨rfl, rfl⟩

end CacheRegister
